import Mathlib

/-!
Shallow embedding of the hierarchy-flattening core of `hana2py`
(`src/hana2py/HierarchyTable.py` and `src/hana2py/utilities.py`).

The SQL-emitting loops are embedded structurally: each emitted fragment
(`WHEN` branch, `LEFT OUTER JOIN` line, text-resolution branch) becomes one
element of a Lean list, carrying exactly the data the Python f-string
interpolates, and SQL runtime behaviour (CASE first-match evaluation,
drop/create DDL against a table state) is given explicit evaluation
functions.  Database round trips are abstracted as function parameters
(per-depth row counts, query evaluation), mirroring the sole information the
code extracts from them.
-/

namespace Hana2py

/-! ### Depth probing: `HierarchyTable._find_highest_level`

Python (HierarchyTable.py lines 36-59):
```
level = 1
n_row = 1
while n_row > 0:
    query = ...count where TLEVEL = level...
    n_df = pd.read_sql(query, con=self.engine)
    n_row = int(n_df.loc[0][0])
    level += 1
highest_level = level - 2
```
The database is abstracted by `counts : Nat → Nat`, the per-depth row count
for the fixed hierarchy id; `fuel` bounds the number of probes (the Python
loop has no bound and would spin forever if every depth had rows).
The loop returns the list of probed depths together with the final value of
`level`; the wrapper subtracts 2, as the source does. -/

def find_highest_level_loop (counts : Nat → Nat) : Nat → Nat → List Nat × Nat
  | 0, level => ([], level)
  | fuel + 1, level =>
    let n_row := counts level
    if n_row > 0 then
      let r := find_highest_level_loop counts fuel (level + 1)
      (level :: r.1, r.2)
    else
      ([level], level + 1)

/-- Probed depths and the returned `highest_level` (= final `level - 2`). -/
def find_highest_level (counts : Nat → Nat) (fuel : Nat) : List Nat × Nat :=
  let r := find_highest_level_loop counts fuel 1
  (r.1, r.2 - 2)

/-! ### Column projection: `HierarchyTable._get_generated_loop`

Python (HierarchyTable.py lines 99-116):
```
k = 0
for j in range(self.highest_level, 1, -1):
    generated_loop += '(CASE F.TLEVEL\n'
    for i in range(1, j):
        level = self.highest_level - i + 1
        node_level = i + k
        col_level = level - 1
        generated_loop += f'WHEN {level} THEN H{node_level}.NODENAME\n'
    generated_loop += f'ELSE \x27 \x27 END) AS L{col_level},\n\t'
    k = k + 1
```
Each outer iteration emits one CASE expression; a `WHEN` branch is the pair
`(level, node_level)` — compare the row depth `F.TLEVEL` with `level` and
select `H{node_level}.NODENAME`.  The alias `L{col_level}` uses the value
`col_level` holds after the inner loop, i.e. its value at `i = j - 1`
(the inner loop is nonempty whenever `j ≥ 2`).  `k` starts at 0 and is
incremented once per outer iteration, so at outer value `j` (descending from
`M`) it equals `M - j`. -/

structure CaseExpr where
  /-- `WHEN` branches in emission order: `(tlevel, aliasIdx)` stands for
  `WHEN tlevel THEN H{aliasIdx}.NODENAME`. -/
  whens : List (Nat × Nat)
  /-- the `col_level` interpolated into `AS L{col_level}`. -/
  colLevel : Nat
  deriving DecidableEq

/-- The CASE expression emitted at outer index `j` with counter `k`:
branches for `i = 1 .. j-1`, and `col_level` as left by the final inner
iteration `i = j - 1` (namely `(M - (j-1) + 1) - 1`). -/
def caseFor (M j k : Nat) : CaseExpr :=
  { whens := (List.range' 1 (j - 1)).map (fun i => (M - i + 1, i + k))
  , colLevel := (M - (j - 1) + 1) - 1 }

/-- The list of CASE expressions, in emission order.  The Python outer loop
runs `j = M, M-1, ..., 2` (i.e. `range(M, 1, -1)`), with `k = M - j`. -/
def get_generated_loop (M : Nat) : List CaseExpr :=
  ((List.range' 2 (M - 1)).reverse).map (fun j => caseFor M j (M - j))

/-- SQL semantics of one emitted `CASE F.TLEVEL ... ELSE ' ' END`
expression: first matching `WHEN` wins and selects the (possibly NULL,
because left-joined) `NODENAME` of its alias; otherwise the single-space
literal.  `none` is SQL NULL. -/
def evalCase (ce : CaseExpr) (tlevel : Nat) (nodename : Nat → Option String) :
    Option String :=
  match ce.whens.find? (fun w => w.1 = tlevel) with
  | some w => nodename w.2
  | none => some " "

/-! ### Join chain: `HierarchyTable._get_left_joins`

Python (HierarchyTable.py lines 81-96):
```
highest_level = self.highest_level - 1
for level in range(highest_level, 0, -1):
    if level == highest_level:
        join_table = 'F'
    else:
        join_table = 'H' + str(level + 1)
    left_join += f'LEFT OUTER JOIN {table} H{level} '
                 f'ON H{level}.NODEID = {join_table}.PARENTID '
                 f'AND H{level}.HIEID = F.HIEID\n'
```
-/

inductive JoinTarget where
  | F : JoinTarget
  | H : Nat → JoinTarget
  deriving DecidableEq

structure LeftJoin where
  /-- the alias `H{level}` being introduced. -/
  level : Nat
  /-- the alias whose `PARENTID` is matched: `ON H{level}.NODEID = target.PARENTID`. -/
  target : JoinTarget
  /-- the emitted `AND H{level}.HIEID = F.HIEID` constraint. -/
  hieidSameAsF : Bool
  deriving DecidableEq

/-- The LEFT OUTER self-joins, in emission order (`level` descending from
`M - 1` to `1`). -/
def get_left_joins (M : Nat) : List LeftJoin :=
  let highest_level := M - 1
  ((List.range' 1 highest_level).reverse).map (fun level =>
    { level := level
    , target := if level = highest_level then JoinTarget.F else JoinTarget.H (level + 1)
    , hieidSameAsF := true })

/-! ### Text resolution: `HierarchyTable._get_node_text`

Python (HierarchyTable.py lines 135-143):
```
NODETEXT = f'select *, case when node_text is null then case\n'
for level in range(2, self.highest_level + 1):
    tlevel = [str(level) if level > 9 else '0' + str(level)][0]
    NODETEXT += f'when tlevel=\x27{tlevel}\x27 then t{level - 1}\n'
NODETEXT += 'else null end \n else node_text end as NODETEXT'
```
Python's `str(level)` is the decimal representation, embedded below as
`natStr` (decimal digits, most significant first). -/

def digitChar (n : Nat) : Char :=
  Char.ofNat (48 + n)

/-- Decimal digits of `n`, most significant first; `fuel`-bounded recursion
on `n / 10` (any `fuel > n` suffices). -/
def toDecimalAux : Nat → Nat → List Char
  | 0, _ => []
  | fuel + 1, n =>
    if n < 10 then [digitChar n]
    else toDecimalAux fuel (n / 10) ++ [digitChar (n % 10)]

/-- Embedding of Python `str(n)` for a natural number. -/
def natStr (n : Nat) : String :=
  ⟨toDecimalAux (n + 1) n⟩

/-- `[str(level) if level > 9 else '0' + str(level)][0]`. -/
def padTLevel (level : Nat) : String :=
  if level > 9 then natStr level else "0" ++ natStr level

/-- The `WHEN` branches of the inner CASE, in emission order: the branch for
`level ∈ 2 .. M` is `(padTLevel level, level - 1)`, standing for
`when tlevel='{padTLevel level}' then t{level - 1}` (Python
`range(2, M + 1)`). -/
def get_node_text_cases (M : Nat) : List (String × Nat) :=
  (List.range' 2 (M - 1)).map (fun level => (padTLevel level, level - 1))

/-- SQL semantics of the emitted `NODETEXT` expression for one row:
`node_text` is the row's pre-existing node-text column (`none` = NULL),
`tlevel` the row's (string-typed) depth column, and `t d` the value of the
row's `t{d}` column.  Outer CASE: non-null `node_text` wins; otherwise the
inner CASE switches on `tlevel` with first-match semantics and falls back to
NULL. -/
def eval_node_text (M : Nat) (node_text : Option String) (tlevel : String)
    (t : Nat → Option String) : Option String :=
  match node_text with
  | some v => some v
  | none =>
    match (get_node_text_cases M).find? (fun c => c.1 = tlevel) with
    | some c => t c.2
    | none => none

/-! ### Orchestration: `_drop_table`, `_create_hierarchy_table_query`,
`create_hierarchy_table`, `__init__`

Python (HierarchyTable.py lines 63-78 and 185-193): `create_hierarchy_table`
first calls `_drop_table` (which executes the drop DDL when
`engine.dialect.has_table(...)` holds and otherwise just prints), then builds
the generation query — a pure function of the probed `highest_level` and the
static configuration, whose variable parts are exactly the outputs of
`_get_generated_loop`, `_get_left_joins` and `_get_node_text` — and executes
it.  `__init__` (lines 13-34) probes the depth and then unconditionally calls
`create_hierarchy_table`.  There is no emptiness check and no error raised
anywhere on the path. -/

inductive HAction where
  /-- the drop DDL was executed (`_drop_table`, table present). -/
  | dropOldTable : HAction
  /-- only the "does not exist, continue to create" message was printed. -/
  | printTableMissing : HAction
  /-- the CREATE-AS-SELECT DDL was executed; its payload is the variable
  content of the generated query. -/
  | executeCreate : List CaseExpr → List LeftJoin → List (String × Nat) → HAction
  deriving DecidableEq

/-- The DDL actions of one `create_hierarchy_table()` call, given the probed
max depth `M` and whether the generated table currently exists. -/
def create_hierarchy_table_run (M : Nat) (tableExists : Bool) : List HAction :=
  (if tableExists then [HAction.dropOldTable] else [HAction.printTableMissing])
    ++ [HAction.executeCreate (get_generated_loop M) (get_left_joins M)
          (get_node_text_cases M)]

/-- `HierarchyTable.__init__`: probe the highest level, then run
`create_hierarchy_table` with it. -/
def hierarchy_table_init (counts : Nat → Nat) (fuel : Nat) (tableExists : Bool) :
    List HAction :=
  create_hierarchy_table_run (find_highest_level counts fuel).2 tableExists

/-- Effect of one DDL action on the destination table state (`none` =
absent).  `evalQ` is the engine's evaluation of the CREATE-AS-SELECT against
the (unchanged) source hierarchy, a function of the query's variable
content. -/
def applyHAction {T : Type}
    (evalQ : List CaseExpr → List LeftJoin → List (String × Nat) → T) :
    Option T → HAction → Option T
  | _, HAction.dropOldTable => none
  | st, HAction.printTableMissing => st
  | _, HAction.executeCreate loop joins textCases => some (evalQ loop joins textCases)

/-- One full generation run against destination state `st`: the existence
check feeds `_drop_table`, then the actions are applied in order. -/
def run_generation {T : Type}
    (evalQ : List CaseExpr → List LeftJoin → List (String × Nat) → T)
    (M : Nat) (st : Option T) : Option T :=
  (create_hierarchy_table_run M st.isSome).foldl (applyHAction evalQ) st

/-! ### Retrying execution: `utilities.execute_query`

Python (utilities.py lines 165-190):
```
def execute_query(engine, query, message, retry=0):
    if retry < 3:
        try:
            con = engine.connect()
            con.execute(query)
            ...
        except Exception as e:
            retry += 1
            if 'BrokenPipeError' in e.args[0]:
                execute_query(query, message, retry)
            else: ...
```
The recursive call passes `query` positionally as `engine`, `message` as
`query` and `retry` as `message`, with `retry` back at its default `0`.
Python values are embedded as `PyVal`; attempting `.connect()` on a non-engine
raises `AttributeError`.  The function returns the list of
`(engine, query)` pairs it attempted to execute; errors are only printed,
never raised, as in the source. -/

inductive PyVal where
  | engine : PyVal
  | str : String → PyVal
  | num : Nat → PyVal
  deriving DecidableEq

/-- `needle in hay` for strings (Python substring test). -/
def strContains (hay needle : String) : Bool :=
  (List.range (hay.data.length + 1)).any
    (fun i => needle.data.isPrefixOf (hay.data.drop i))

/-- `engine.connect(); con.execute(query)`: on the real engine the outcome is
given by `behavior` (the abstracted database: `Except.error msg` models an
exception with message `msg`); on anything else, `.connect()` raises
`AttributeError`. -/
def connExec (behavior : PyVal → Except String Unit) :
    PyVal → PyVal → Except String Unit
  | PyVal.engine, q => behavior q
  | PyVal.str _, _ => Except.error "AttributeError: str object has no attribute connect"
  | PyVal.num _, _ => Except.error "AttributeError: int object has no attribute connect"

/-- The connection/execution attempts made by `execute_query`, in order.
`fuel` bounds the recursion depth of the embedding (the source recursion is
not structurally bounded, since the callee restarts at `retry = 0`). -/
def execute_query (behavior : PyVal → Except String Unit) :
    Nat → PyVal → PyVal → PyVal → Nat → List (PyVal × PyVal)
  | 0, _, _, _, _ => []
  | fuel + 1, eng, query, message, retry =>
    if retry < 3 then
      match connExec behavior eng query with
      | Except.ok _ => [(eng, query)]
      | Except.error msg =>
        if strContains msg "BrokenPipeError" then
          (eng, query) :: execute_query behavior fuel query message (PyVal.num (retry + 1)) 0
        else
          [(eng, query)]
    else []

/-! ### Chunked read: `utilities.read_sql_with_progress`

Python (utilities.py lines 271-283):
```
n_row = pd.read_sql(f'select count(*) from {table_name}', con=engine).loc[0][0]
total_iter = math.ceil(n_row / chunksize)
df = pd.DataFrame()
for i in range(0, total_iter):
    cdf = pd.read_sql(query, con=engine)
    df = pd.concat([df, cdf])
return df
```
The database is abstracted by the table's row count `n_row` and by
`runQuery`, the full result set of a query.  The function returns the list
of queries it executed (after the initial count) together with the
accumulated dataframe (a list of rows). -/

def read_sql_with_progress {Row : Type} (query : String)
    (runQuery : String → List Row) (n_row chunksize : Nat) :
    List String × List Row :=
  let total_iter := (n_row + chunksize - 1) / chunksize
  (List.range total_iter).foldl
    (fun acc _ => (acc.1 ++ [query], acc.2 ++ runQuery query)) ([], [])

/-! ### Verification-side definitions -/

/-- The CASE expression that (as proved below) `_get_generated_loop` emits
for output column `c`: `WHEN` branches for `i = 1 .. M - c` selecting
`(M - i + 1, i + c - 1)`, aliased `L{c}`. -/
def colCase (M c : Nat) : CaseExpr :=
  { whens := (List.range' 1 (M - c)).map (fun i => (M - i + 1, i + c - 1))
  , colLevel := c }

/-- Decimal value of a digit string (used to invert `natStr`/`padTLevel`). -/
def decValAux (cs : List Char) : Nat :=
  cs.foldl (fun a c => 10 * a + (c.toNat - 48)) 0

/-- The alias index claimed by the spec for the branch at source depth `d` of
output column `c`: `(M - d) + (M - c)`. -/
def specAliasIdx (M d c : Nat) : Nat :=
  (M - d) + (M - c)

/-- The spec's description of the column projection at a fixed `max_depth`:
every output column's CASE has exactly one `WHEN` branch per source depth
`d ∈ 2 .. M`, selecting alias `specAliasIdx M d col_level`. -/
def specCaseLadderHolds (M : Nat) : Prop :=
  ∀ ce ∈ get_generated_loop M, ∀ d ∈ List.range' 2 (M - 1),
    (ce.whens.filter (fun w => w.1 = d)).length = 1 ∧
    (d, specAliasIdx M d ce.colLevel) ∈ ce.whens

/-! ### Structural lemmas for the column projection -/

/-- Reindexing of `_get_generated_loop`: column `c = M - j + 1` ascends
`1 .. M - 1` while `j` descends `M .. 2`, producing `colCase M c`. -/
lemma get_generated_loop_eq (M : Nat) :
    get_generated_loop M = (List.range' 1 (M - 1)).map (colCase M) := by
  unfold get_generated_loop
  rw [List.reverse_range', List.map_map, List.range'_eq_map_range, List.map_map]
  apply List.map_congr_left
  intro i hi
  rw [List.mem_range] at hi
  simp only [Function.comp]
  have hj : 2 + (M - 1) - 1 - i = M - i := by omega
  have hk : M - (M - i) = i := by omega
  rw [hj, hk]
  unfold caseFor colCase
  simp only [CaseExpr.mk.injEq]
  constructor
  · have hlen : M - i - 1 = M - (1 + i) := by omega
    rw [hlen]
    apply List.map_congr_left
    intro t _
    simp only [Prod.mk.injEq]
    exact ⟨trivial, by omega⟩
  · omega

/-- Every `WHEN` branch of `colCase M c` (for `c ∈ 1 .. M-1`) compares
against a depth in `c + 1 .. M` and selects alias `(M - d) + c`. -/
lemma mem_whens_bounds (M c : Nat) (hc : 1 ≤ c) (hc' : c ≤ M - 1) (hM : 2 ≤ M)
    (w : Nat × Nat) (hw : w ∈ (colCase M c).whens) :
    c + 1 ≤ w.1 ∧ w.1 ≤ M ∧ w.2 = (M - w.1) + c := by
  unfold colCase at hw
  simp only [List.mem_map] at hw
  obtain ⟨i, hi, rfl⟩ := hw
  rw [List.mem_range'_1] at hi
  refine ⟨by omega, by omega, by omega⟩

/-! ### Claim theorems: column projection -/

/-- Claim C4: for every `max_depth M ≥ 2`, `_get_generated_loop` emits
exactly `M - 1` CASE expressions, aliased `L1` through `L(M-1)`, in that
ascending order. -/
theorem C4_level_columns_count_and_order (M : Nat) (hM : 2 ≤ M) :
    (get_generated_loop M).map CaseExpr.colLevel = List.range' 1 (M - 1) ∧
    (get_generated_loop M).length = M - 1 := by
  rw [get_generated_loop_eq]
  constructor
  · rw [List.map_map]
    have h : CaseExpr.colLevel ∘ colCase M = fun c => c := by
      funext c
      rfl
    rw [h, List.map_id']
  · rw [List.length_map, List.length_range']

/-- Witness for C4 at `M = 5`: the emitted aliases are `L1, L2, L3, L4`. -/
theorem C4_level_columns_witness :
    (get_generated_loop 5).map CaseExpr.colLevel = List.range' 1 4 :=
  (C4_level_columns_count_and_order 5 (by decide)).1

/-- Claim C1 as stated is false at `max_depth M = 3` (which satisfies
`M ≥ 2`): the CASE for `L2` is `WHEN 3 THEN H2.NODENAME ELSE ' '` — it has
no branch for source depth `2`, and the alias claimed by the formula
`(M - d) + (M - col_level)` does not match the emitted one. -/
theorem C1_case_ladder_counterexample : 2 ≤ 3 ∧ ¬ specCaseLadderHolds 3 := by
  constructor
  · decide
  · unfold specCaseLadderHolds
    decide

/-- Claim C1 amended: for every `max_depth M ≥ 2`, the CASE for output
column `L(col_level)` has one `WHEN` branch for each source depth `d` from
`col_level + 1` up to `M` (not from `2` up to `M`), and the branch for depth
`d` selects the NODENAME of the join alias whose index is
`(M - d) + col_level` (not `(M - d) + (M - col_level)`). -/
theorem C1_case_ladder_amended (M : Nat) (hM : 2 ≤ M) (ce : CaseExpr)
    (hce : ce ∈ get_generated_loop M) :
    1 ≤ ce.colLevel ∧ ce.colLevel ≤ M - 1 ∧
    (∀ w ∈ ce.whens,
      ce.colLevel + 1 ≤ w.1 ∧ w.1 ≤ M ∧ w.2 = (M - w.1) + ce.colLevel) ∧
    (∀ d, ce.colLevel + 1 ≤ d → d ≤ M →
      (d, (M - d) + ce.colLevel) ∈ ce.whens) ∧
    (ce.whens.map Prod.fst).Nodup := by
  rw [get_generated_loop_eq] at hce
  rw [List.mem_map] at hce
  obtain ⟨c, hc, rfl⟩ := hce
  rw [List.mem_range'_1] at hc
  have hcol : (colCase M c).colLevel = c := rfl
  rw [hcol]
  refine ⟨by omega, by omega, ?_, ?_, ?_⟩
  · intro w hw
    exact mem_whens_bounds M c (by omega) (by omega) hM w hw
  · intro d hd hdM
    unfold colCase
    rw [List.mem_map]
    refine ⟨M - d + 1, ?_, ?_⟩
    · rw [List.mem_range'_1]
      omega
    · simp only [Prod.mk.injEq]
      exact ⟨by omega, by omega⟩
  · unfold colCase
    rw [List.map_map]
    refine List.Nodup.map_on ?_ (List.nodup_range' 1 (M - c))
    intro x hx y hy hxy
    rw [List.mem_range'_1] at hx hy
    simp only [Function.comp] at hxy
    omega

/-- Witness for the amended C1 at `M = 3`, column `L2`, depth `d = 3`: the
branch `(3, (3 - 3) + 2)` is present in the emitted CASE `[(3, 2)]`. -/
theorem C1_case_ladder_amended_witness :
    ((3 : Nat), (3 - 3) + 2) ∈ (CaseExpr.mk [(3, 2)] 2).whens :=
  (C1_case_ladder_amended 3 (by decide) (CaseExpr.mk [(3, 2)] 2)
    (by decide)).2.2.2.1 3 (by decide) (by decide)

/-- Claim C5: for every `max_depth M ≥ 2`, every emitted output column and
every base-row depth with `col_level ≥ row_depth`, the CASE evaluates to the
single-space sentinel `' '` — `some " "`, never SQL NULL (`none`) and never
the empty string — whatever the (possibly NULL) joined NODENAME columns
hold. -/
theorem C5_blank_sentinel (M : Nat) (hM : 2 ≤ M) (ce : CaseExpr)
    (hce : ce ∈ get_generated_loop M) (rowDepth : Nat)
    (hd : rowDepth ≤ ce.colLevel) (nodename : Nat → Option String) :
    evalCase ce rowDepth nodename = some " " := by
  rw [get_generated_loop_eq] at hce
  rw [List.mem_map] at hce
  obtain ⟨c, hc, rfl⟩ := hce
  rw [List.mem_range'_1] at hc
  have hnone : (colCase M c).whens.find? (fun w => w.1 = rowDepth) = none := by
    rw [List.find?_eq_none]
    intro w hw
    have hb := mem_whens_bounds M c (by omega) (by omega) hM w hw
    have hcol : (colCase M c).colLevel = c := rfl
    rw [hcol] at hd
    simp only [decide_eq_true_eq]
    omega
  unfold evalCase
  rw [hnone]

/-- Witness for C5 at `M = 3`, column `L2`, row depth `1`: the value is the
blank sentinel even when every joined NODENAME is NULL. -/
theorem C5_blank_sentinel_witness :
    evalCase (CaseExpr.mk [(3, 2)] 2) 1 (fun _ => none) = some " " :=
  C5_blank_sentinel 3 (by decide) (CaseExpr.mk [(3, 2)] 2) (by decide) 1
    (by decide) (fun _ => none)

/-! ### Claim theorems: join chain -/

/-- Claim C7: for every `max_depth M ≥ 2`, `_get_left_joins` emits exactly
`M - 1` LEFT OUTER self-joins in descending level order `M-1 .. 1`; the join
at level `M - 1` matches `F.PARENTID`, the join at each level `k < M - 1`
matches `H(k+1).PARENTID`, and every join carries the constraint
`H{k}.HIEID = F.HIEID`. -/
theorem C7_join_chain (M : Nat) (hM : 2 ≤ M) :
    (get_left_joins M).map LeftJoin.level = (List.range' 1 (M - 1)).reverse ∧
    (get_left_joins M).length = M - 1 ∧
    ∀ j ∈ get_left_joins M,
      j.hieidSameAsF = true ∧ 1 ≤ j.level ∧ j.level ≤ M - 1 ∧
      (j.level = M - 1 → j.target = JoinTarget.F) ∧
      (j.level < M - 1 → j.target = JoinTarget.H (j.level + 1)) := by
  refine ⟨?_, ?_, ?_⟩
  · unfold get_left_joins
    rw [List.map_map]
    have h : (LeftJoin.level ∘ fun level =>
        ({ level := level
         , target := if level = M - 1 then JoinTarget.F else JoinTarget.H (level + 1)
         , hieidSameAsF := true } : LeftJoin)) = fun level => level := by
      funext level
      rfl
    rw [h, List.map_id']
  · unfold get_left_joins
    rw [List.length_map, List.length_reverse, List.length_range']
  · intro j hj
    unfold get_left_joins at hj
    rw [List.mem_map] at hj
    obtain ⟨level, hlevel, rfl⟩ := hj
    rw [List.mem_reverse, List.mem_range'_1] at hlevel
    dsimp only
    refine ⟨rfl, by omega, by omega, ?_, ?_⟩
    · intro heq
      simp only [if_pos heq]
    · intro hlt
      have hne : level ≠ M - 1 := by omega
      simp only [if_neg hne]

/-- Witness for C7 at `M = 3`: the join aliases are `H2, H1`, in that
order. -/
theorem C7_join_chain_witness :
    (get_left_joins 3).map LeftJoin.level = (List.range' 1 2).reverse :=
  (C7_join_chain 3 (by decide)).1

/-! ### Claim theorems: depth probing -/

/-- Loop invariant of `_find_highest_level`: starting at `level`, if counts
are positive on the next `L` depths and zero at `level + L`, the loop probes
exactly the depths `level .. level + L` and leaves `level` at
`level + L + 1`. -/
lemma find_highest_level_loop_spec (counts : Nat → Nat) :
    ∀ (L fuel level : Nat), L + 1 ≤ fuel →
      (∀ d, level ≤ d → d < level + L → 0 < counts d) →
      counts (level + L) = 0 →
      find_highest_level_loop counts fuel level =
        (List.range' level (L + 1), level + L + 1) := by
  intro L
  induction L with
  | zero =>
    intro fuel level hf hpos hz
    match fuel, hf with
    | f + 1, _ =>
      unfold find_highest_level_loop
      rw [Nat.add_zero] at hz
      simp only [hz, Nat.lt_irrefl, if_false]
      rfl
  | succ L ih =>
    intro fuel level hf hpos hz
    match fuel, hf with
    | f + 1, hf =>
      unfold find_highest_level_loop
      have hlev : 0 < counts level := hpos level (Nat.le_refl level) (by omega)
      simp only [hlev, if_true]
      have hrec := ih f (level + 1) (by omega)
        (fun d hd hd' => hpos d (by omega) (by omega))
        (by rw [show level + 1 + L = level + (L + 1) from by omega]; exact hz)
      rw [hrec, List.range'_succ]
      refine Prod.mk.injEq .. ▸ ⟨rfl, ?_⟩
      simp only [Prod.mk.injEq]
      omega

/-- Claim C6: given per-depth row counts, `_find_highest_level` returns `L`
whenever depths `1 .. L` all have positive counts and depth `L + 1` has a
zero count (`L = 0`, i.e. a zero count at depth 1, yields 0), and the probed
depths are exactly `1 .. L + 1` — probing stops at the first zero count, so
no depth beyond it is ever examined.  `fuel ≥ L + 1` makes the Python
`while` loop's implicit termination explicit. -/
theorem C6_depth_probe (counts : Nat → Nat) (L fuel : Nat)
    (hf : L + 1 ≤ fuel)
    (hpos : ∀ d, 1 ≤ d → d ≤ L → 0 < counts d)
    (hz : counts (L + 1) = 0) :
    find_highest_level counts fuel = (List.range' 1 (L + 1), L) := by
  unfold find_highest_level
  rw [find_highest_level_loop_spec counts L fuel 1 hf
    (fun d hd hd' => hpos d hd (by omega))
    (show counts (1 + L) = 0 from by rw [Nat.add_comm]; exact hz)]
  simp only [Prod.mk.injEq]
  exact ⟨trivial, by omega⟩

/-- Witness for C6: counts positive at depths 1-3 and zero at depth 4 give
highest level 3, with exactly depths 1-4 probed. -/
theorem C6_depth_probe_witness :
    find_highest_level (fun d => if d ≤ 3 then 2 else 0) 10 =
      (List.range' 1 4, 3) :=
  C6_depth_probe (fun d => if d ≤ 3 then 2 else 0) 3 10 (by decide)
    (fun d _ hd => by simp only [if_pos hd]; decide) (by decide)

/-! ### Decimal representation lemmas (for the `tlevel` string switch) -/

lemma digitChar_toNat (n : Nat) (h : n < 10) : (digitChar n).toNat = 48 + n := by
  interval_cases n <;> rfl

lemma decValAux_append_digit (l : List Char) (c : Char) :
    decValAux (l ++ [c]) = 10 * decValAux l + (c.toNat - 48) := by
  unfold decValAux
  rw [List.foldl_append]
  rfl

lemma decValAux_toDecimalAux :
    ∀ fuel n, n < fuel → decValAux (toDecimalAux fuel n) = n := by
  intro fuel
  induction fuel with
  | zero => intro n h; omega
  | succ fuel ih =>
    intro n h
    unfold toDecimalAux
    by_cases h10 : n < 10
    · simp only [if_pos h10]
      show 10 * 0 + ((digitChar n).toNat - 48) = n
      rw [digitChar_toNat n h10]
      omega
    · simp only [if_neg h10]
      rw [decValAux_append_digit, ih (n / 10) (by omega),
        digitChar_toNat (n % 10) (Nat.mod_lt n (by omega))]
      omega

lemma decValAux_natStr (n : Nat) : decValAux (natStr n).data = n :=
  decValAux_toDecimalAux (n + 1) n (Nat.lt_succ_self n)

lemma decValAux_padTLevel (d : Nat) : decValAux (padTLevel d).data = d := by
  unfold padTLevel
  by_cases h : d > 9
  · simp only [if_pos h]
    exact decValAux_natStr d
  · simp only [if_neg h]
    show decValAux ('0' :: (natStr d).data) = d
    show decValAux (natStr d).data = d
    exact decValAux_natStr d

lemma padTLevel_inj {d d' : Nat} (h : padTLevel d = padTLevel d') : d = d' := by
  have hv := decValAux_padTLevel d
  rw [h, decValAux_padTLevel d'] at hv
  exact hv.symm

/-- `List.find?` returns the unique element satisfying the predicate. -/
lemma find?_eq_some_of_unique {α : Type} (p : α → Bool) :
    ∀ (l : List α) (a : α), a ∈ l → (∀ x ∈ l, p x = true ↔ x = a) →
      l.find? p = some a := by
  intro l
  induction l with
  | nil => intro a ha _; exact absurd ha (List.not_mem_nil a)
  | cons b t ih =>
    intro a ha hu
    by_cases hp : p b
    · rw [List.find?_cons_of_pos _ hp]
      rw [(hu b (List.mem_cons_self b t)).mp hp]
    · rw [List.find?_cons_of_neg _ hp]
      rcases List.mem_cons.mp ha with hab | hat
      · exact absurd ((hu b (List.mem_cons_self b t)).mpr hab.symm) hp
      · exact ih a hat (fun x hx => hu x (List.mem_cons_of_mem b hx))

/-! ### Claim theorems: NODETEXT resolution -/

/-- Claim C8: in the generated text-resolution expression, NODETEXT equals
the pre-existing `node_text` column whenever it is non-null; when it is
null, NODETEXT equals `t(d-1)` if the row's two-digit zero-padded `tlevel`
string matches some depth `d ∈ 2 .. M`, and NULL when `tlevel` matches no
emitted case (e.g. depth 1). -/
theorem C8_node_text_resolution (M : Nat) (node_text : Option String)
    (tlevel : String) (t : Nat → Option String) :
    (∀ v, node_text = some v → eval_node_text M node_text tlevel t = some v) ∧
    (node_text = none → ∀ d, 2 ≤ d → d ≤ M → tlevel = padTLevel d →
      eval_node_text M node_text tlevel t = t (d - 1)) ∧
    (node_text = none → (∀ d, 2 ≤ d → d ≤ M → tlevel ≠ padTLevel d) →
      eval_node_text M node_text tlevel t = none) := by
  refine ⟨?_, ?_, ?_⟩
  · intro v hv
    rw [hv]
    rfl
  · intro hn d hd2 hdM htl
    subst hn
    subst htl
    have hfind : (get_node_text_cases M).find?
        (fun c => c.1 = padTLevel d) = some (padTLevel d, d - 1) := by
      unfold get_node_text_cases
      rw [List.find?_map]
      rw [find?_eq_some_of_unique _ (List.range' 2 (M - 1)) d ?_ ?_]
      · rfl
      · rw [List.mem_range'_1]
        omega
      · intro x hx
        simp only [Function.comp, decide_eq_true_eq, Prod.fst]
        constructor
        · exact fun hex => padTLevel_inj hex
        · intro hxd
          rw [hxd]
    unfold eval_node_text
    rw [hfind]
  · intro hn hne
    subst hn
    have hfind : (get_node_text_cases M).find?
        (fun c => c.1 = tlevel) = none := by
      rw [List.find?_eq_none]
      intro c hc
      unfold get_node_text_cases at hc
      rw [List.mem_map] at hc
      obtain ⟨level, hlevel, rfl⟩ := hc
      rw [List.mem_range'_1] at hlevel
      simp only [decide_eq_true_eq]
      intro hcontra
      exact hne level (by omega) (by omega) hcontra.symm
    unfold eval_node_text
    rw [hfind]

/-- Witness for C8 at `M = 3`: a row with NULL `node_text` and
`tlevel = '02'` resolves to its `t1` column. -/
theorem C8_node_text_resolution_witness :
    eval_node_text 3 none "02" (fun n => some (natStr n)) = some (natStr 1) :=
  (C8_node_text_resolution 3 none "02" (fun n => some (natStr n))).2.1 rfl 2
    (by decide) (by decide) (by decide)

/-! ### Claim theorems: orchestration and error handling -/

/-- Claim C2 concerns a check the code does not perform: with zero rows at
every depth (so the probe finds zero rows at depth 1 and returns highest
level 0), `__init__` still proceeds — the existing generated table is
dropped and the CREATE DDL, built from empty join/case/text lists, is
executed.  No configuration error is modelled because none is raised
anywhere on this path in the source. -/
theorem C2_empty_hierarchy_still_creates :
    hierarchy_table_init (fun _ => 0) 10 true =
      [HAction.dropOldTable, HAction.executeCreate [] [] []] := by
  rfl

/-- Claim C3 concerns the retry of `execute_query`: with an engine whose
every execution raises an error mentioning `BrokenPipeError`, the attempt
trace is `[(engine, query), (query, message)]` — the one recursive "retry"
connects against the *query string* (the arguments shift left, `retry`
falling back to its default `0`), fails with `AttributeError` (which does
not mention `BrokenPipeError`), and recursion stops.  The same query is
never re-executed against the engine, and there are 2 attempts, not 3. -/
theorem C3_retry_drops_engine_argument :
    execute_query (fun _ => Except.error "BrokenPipeError: connection lost")
      10 PyVal.engine (PyVal.str "CREATE TABLE Q") (PyVal.str "done") 0 =
    [(PyVal.engine, PyVal.str "CREATE TABLE Q"),
     (PyVal.str "CREATE TABLE Q", PyVal.str "done")] := by
  decide

/-- Claim C9: one generation run leaves the destination in the state
`some (evalQ ...)`, a function of the configuration and probed depth only —
independent of the prior state, because the run drops any existing table and
recreates it from the deterministic query.  Hence running the full
generation twice against an unchanged source yields exactly the state of a
single run (full refresh, never an incremental merge). -/
theorem C9_full_refresh_idempotent {T : Type}
    (evalQ : List CaseExpr → List LeftJoin → List (String × Nat) → T)
    (M : Nat) (st : Option T) :
    run_generation evalQ M (run_generation evalQ M st) =
      run_generation evalQ M st := by
  have h : ∀ s : Option T, run_generation evalQ M s =
      some (evalQ (get_generated_loop M) (get_left_joins M)
        (get_node_text_cases M)) := by
    intro s
    cases s <;> rfl
  rw [h, h]

/-- Claim C10: for a table of `n_row` rows and `chunksize > 0`,
`read_sql_with_progress` issues the same unmodified query
`⌈n_row / chunksize⌉` times and returns the concatenation of all the
results — that many complete copies of the query's full result set, not a
single copy assembled from disjoint chunks. -/
theorem C10_chunked_read_repeats_query {Row : Type} (query : String)
    (runQuery : String → List Row) (n_row chunksize : Nat)
    (h : 0 < chunksize) :
    read_sql_with_progress query runQuery n_row chunksize =
      (List.replicate ((n_row + chunksize - 1) / chunksize) query,
       (List.replicate ((n_row + chunksize - 1) / chunksize)
         (runQuery query)).flatten) := by
  show (List.range ((n_row + chunksize - 1) / chunksize)).foldl
      (fun acc _ => (acc.1 ++ [query], acc.2 ++ runQuery query)) ([], []) = _
  generalize (n_row + chunksize - 1) / chunksize = total_iter
  induction total_iter with
  | zero => rfl
  | succ n ih =>
    rw [List.range_succ, List.foldl_append, ih]
    show (List.replicate n query ++ [query],
        (List.replicate n (runQuery query)).flatten ++ runQuery query) = _
    rw [← List.replicate_succ' n query]
    rw [show List.replicate (n + 1) (runQuery query) =
        List.replicate n (runQuery query) ++ [runQuery query] from
      List.replicate_succ' ..]
    rw [List.flatten_append]
    simp only [List.flatten, List.append_nil]

/-- Witness for C10: row count 25, chunk size 10 → the query is executed 3
times and the result holds 3 copies of the full result set. -/
theorem C10_chunked_read_witness :
    read_sql_with_progress "Q" (fun _ => ["a", "b"]) 25 10 =
      (List.replicate 3 "Q", (List.replicate 3 ["a", "b"]).flatten) :=
  C10_chunked_read_repeats_query "Q" (fun _ => ["a", "b"]) 25 10 (by decide)

end Hana2py
